import Mathlib

/-!
Verification development for the pharmacy drug checker matching engine
(`app/excel_matcher.py`).  The Python functions are shallowly embedded as
executable Lean definitions over `Str := List Char`:

* `normalize_text` models `normalize_text` (NFKC width folding modelled on
  the full-width ASCII block U+FF01..U+FF5E and the ideographic space, which
  is the fragment the repository relies on; `str.lower` is modelled on the
  ASCII letters, exact for the ASCII/CJK keys appearing in the data);
* `find_column` models the four-tier column resolver;
* `match_and_filter` models `ExcelMatcher.match_and_filter`, with the
  reference table supplied as an already-loaded optional `Table`
  (the loader's file IO boundary: a load failure surfaces as `none`).

Cell values are modelled by `Value`: text, integer, datetime (midnight,
as a day count since 1970-01-01), and missing (`None`/`NaN`).
-/

namespace DrugChecker

abbrev Str := List Char

/-- Model of the NFKC width folding used by `unicodedata.normalize("NFKC", _)`
on the fragment the matcher depends on: full-width ASCII variants
(U+FF01..U+FF5E) fold to ASCII, the ideographic space folds to a space. -/
def nfkcChar (c : Char) : Char :=
  if 0xFF01 ≤ c.toNat ∧ c.toNat ≤ 0xFF5E then Char.ofNat (c.toNat - 0xFEE0)
  else if c.toNat = 0x3000 then ' '
  else c

/-- Model of `str.lower` on the ASCII letters. -/
def lowerChar (c : Char) : Char :=
  if 65 ≤ c.toNat ∧ c.toNat ≤ 90 then Char.ofNat (c.toNat + 32) else c

/-- Whitespace recognised by the model of `str.strip`. -/
def isSpaceChar (c : Char) : Bool := c.isWhitespace

/-- Model of Python `str.strip`: drop whitespace from both ends. -/
def stripStr (s : Str) : Str :=
  ((s.dropWhile isSpaceChar).reverse.dropWhile isSpaceChar).reverse

/-- Model of `normalize_text` (excel_matcher.py lines 18-24): NFKC width
folding, then lowercasing, then stripping of surrounding whitespace. -/
def normalize_text (s : Str) : Str :=
  stripStr ((s.map nfkcChar).map lowerChar)

/-- Model of the Python substring test `sub in s` (contiguous occurrence). -/
def strContains (sub : Str) : Str → Bool
  | [] => sub.isEmpty
  | c :: rest => sub.isPrefixOf (c :: rest) || strContains sub rest

/-- Lowercase a whole string (model of `str.lower` on the ASCII letters). -/
def lowerStr (s : Str) : Str := s.map lowerChar

/-- Model of `find_column` (excel_matcher.py lines 27-69).  Each tier is the
translation of one nested `for col / for pattern` loop: the first column (in
schema order) for which some pattern fires is returned. -/
def find_column (cols : List Str) (patterns : List Str) : Option Str :=
  match cols.find? (fun col => patterns.any (fun p => col == p)) with
  | some col => some col
  | none =>
  match cols.find? (fun col => patterns.any (fun p => strContains (lowerStr p) (lowerStr col))) with
  | some col => some col
  | none =>
  match cols.find? (fun col =>
      patterns.any (fun p => strContains (normalize_text p) (normalize_text col))) with
  | some col => some col
  | none =>
  match (if patterns.any (fun p =>
          strContains "code".data (lowerStr p) || strContains "コード".data p) then
        cols.find? (fun col =>
          strContains "コード".data col || strContains "code".data (lowerStr col))
      else none) with
  | some col => some col
  | none =>
  if patterns.any (fun p => strContains "name".data (lowerStr p) || strContains "名".data p) then
    cols.find? (fun col => strContains "名".data col || strContains "name".data (lowerStr col))
  else none

/-- Configuration constant `UPDATE_DATE_COLUMN_PATTERN` (config.py). -/
def UPDATE_DATE_COLUMN_PATTERN : Str := "⑳当該品目".data

/-- Configuration constant `DRUG_CODE_COLUMN_PATTERNS` (config.py). -/
def DRUG_CODE_COLUMN_PATTERNS : List Str :=
  ["⑤YJコード".data,
   "YJコード".data, "YJ-コード".data, "YJコード番号".data,
   "医薬品コード".data, "医薬品キー".data, "医薬品番号".data, "医薬品ID".data,
   "薬品コード".data, "薬品キー".data, "薬品番号".data, "薬品ID".data,
   "製品コード".data, "商品コード".data, "品目コード".data,
   "NDBコード".data, "HOTコード".data, "JAN".data]

/-- Configuration constant `DRUG_NAME_COLUMN_PATTERNS` (config.py). -/
def DRUG_NAME_COLUMN_PATTERNS : List Str :=
  ["⑥品名".data,
   "医薬品名".data, "医薬品正式名".data, "医薬品正式品名".data,
   "薬品名".data, "薬品正式名".data,
   "品名".data, "正式品名".data,
   "製品名".data, "商品名".data, "製品正式名".data,
   "販売名".data]

/-- Configuration constant `DAYS_BACK` (config.py). -/
def DAYS_BACK : Int := 10

/-- A pattern list is code-related when some pattern contains `code`
(case-insensitively) or the katakana code term (find_column tier 4). -/
def codeRelatedPats (patterns : List Str) : Bool :=
  patterns.any (fun p => strContains "code".data (lowerStr p) || strContains "コード".data p)

/-- A column looks code-related (find_column tier 4). -/
def codeRelatedCol (col : Str) : Bool :=
  strContains "コード".data col || strContains "code".data (lowerStr col)

/-- A pattern list is name-related (find_column tier 4). -/
def nameRelatedPats (patterns : List Str) : Bool :=
  patterns.any (fun p => strContains "name".data (lowerStr p) || strContains "名".data p)

/-- A column looks name-related (find_column tier 4). -/
def nameRelatedCol (col : Str) : Bool :=
  strContains "名".data col || strContains "name".data (lowerStr col)

/-- Tier 1 of the resolver as the claim words it: a schema column equals a
pattern literally, first such column in schema order. -/
def tierExact (cols patterns : List Str) : Option Str :=
  cols.find? (fun col => patterns.any (fun p => col == p))

/-- Tier 2: a lowercased pattern is a substring of a lowercased column. -/
def tierCaseFold (cols patterns : List Str) : Option Str :=
  cols.find? (fun col => patterns.any (fun p => strContains (lowerStr p) (lowerStr col)))

/-- Tier 3: the normalized pattern is a substring of the normalized column. -/
def tierNormFold (cols patterns : List Str) : Option Str :=
  cols.find? (fun col =>
    patterns.any (fun p => strContains (normalize_text p) (normalize_text col)))

/-- Code-semantic fallback stage: enabled when the pattern list is
code-related, and then the first code-looking column wins. -/
def tierSemanticCode (cols patterns : List Str) : Option Str :=
  if codeRelatedPats patterns then cols.find? codeRelatedCol else none

/-- Name-semantic fallback stage: enabled when the pattern list is
name-related, and then the first name-looking column wins. -/
def tierSemanticName (cols patterns : List Str) : Option Str :=
  if nameRelatedPats patterns then cols.find? nameRelatedCol else none

/-- Modelled from the claim text of C6: the semantic fallback read as one
single fourth tier whose ties are broken by schema column order alone, i.e.
a column matches tier 4 when the pattern list is code-related and the column
looks code-related, or the pattern list is name-related and the column looks
name-related. -/
def find_column_claimed (cols patterns : List Str) : Option Str :=
  match tierExact cols patterns with
  | some col => some col
  | none =>
  match tierCaseFold cols patterns with
  | some col => some col
  | none =>
  match tierNormFold cols patterns with
  | some col => some col
  | none =>
  cols.find? (fun col =>
    (codeRelatedPats patterns && codeRelatedCol col) ||
    (nameRelatedPats patterns && nameRelatedCol col))

/-- A spreadsheet cell value: text, integer, datetime (midnight, as a day
count since 1970-01-01) or missing (`None`/`NaN`). -/
inductive Value where
  | vStr : Str → Value
  | vInt : Int → Value
  | vDate : Int → Value
  | vNone : Value
deriving DecidableEq

/-- Model of `pd.notna` on a cell. -/
def Value.notna : Value → Bool
  | .vNone => false
  | _ => true

/-- Day-count to civil calendar date (proleptic Gregorian), the standard
era-based conversion; used to model date rendering. -/
def civilFromDays (z0 : Nat) : Nat × Nat × Nat :=
  let z := z0 + 719468
  let era := z / 146097
  let doe := z % 146097
  let yoe := (doe - doe / 1460 + doe / 36524 - doe / 146096) / 365
  let y := yoe + era * 400
  let doy := doe - (365 * yoe + yoe / 4 - yoe / 100)
  let mp := (5 * doy + 2) / 153
  let d := doy - (153 * mp + 2) / 5 + 1
  let m := if mp < 10 then mp + 3 else mp - 9
  (if m ≤ 2 then y + 1 else y, m, d)

/-- Left-pad a digit string with zeros to the given width. -/
def padZeros (w : Nat) (s : Str) : Str := List.replicate (w - s.length) '0' ++ s

/-- Model of `datetime.strftime("%Y-%m-%d")` on a (midnight) datetime. -/
def strftimeYMD (t : Int) : Str :=
  let ymd := civilFromDays t.toNat
  padZeros 4 (toString ymd.1).data ++ ('-' :: padZeros 2 (toString ymd.2.1).data)
    ++ ('-' :: padZeros 2 (toString ymd.2.2).data)

/-- Model of the Python `str()` rendering of a cell value; a midnight
datetime stringifies with its zero time-of-day attached. -/
def pyStr : Value → Str
  | .vStr s => s
  | .vInt n => (toString n).data
  | .vDate t => strftimeYMD t ++ (' ' :: "00:00:00".data)
  | .vNone => "None".data

/-- Model of `ExcelMatcher._safe_str` (excel_matcher.py lines 290-296):
missing (`None`/`NaN`) becomes the empty string, every other value
stringifies as-is. -/
def safe_str : Value → Str
  | .vNone => []
  | v => pyStr v

/-- A loaded table: ordered column names plus positional rows. -/
structure Table where
  cols : List Str
  rows : List (List Value)
deriving DecidableEq

abbrev Row := List Value

/-- Model of `pd.Series(dict(zip(cols, tuple)))`: an insertion-ordered
mapping where a duplicated column keeps its first position and last value. -/
def mkSeries (cols : List Str) (row : Row) : List (Str × Value) :=
  (cols.zip row).foldl (fun acc kv =>
    if acc.any (fun e => e.1 == kv.1) then
      acc.map (fun e => if e.1 == kv.1 then (e.1, kv.2) else e)
    else acc ++ [kv]) []

/-- Model of `series.get(column, "")` with the optional resolved column name
(excel_matcher.py line 231): an absent column yields the default `""`. -/
def seriesGet (series : List (Str × Value)) (oc : Option Str) : Value :=
  match oc with
  | some c =>
    match series.find? (fun e => e.1 == c) with
    | some e => e.2
    | none => .vStr []
  | none => .vStr []

/-- The `if col and not col.startswith("_")` guard of `_format_result_row`. -/
def keepCol (c : Str) : Bool :=
  match c with
  | [] => false
  | h :: _ => h != '_'

/-- Rendering of a reference-table cell in `_format_result_row`: a datetime
renders as `YYYY-MM-DD`, everything else through `_safe_str`. -/
def renderMhlwCell (v : Value) : Str :=
  match v with
  | .vDate t => strftimeYMD t
  | v => safe_str v

/-- Model of `ExcelMatcher._format_result_row` (excel_matcher.py lines
268-288): pharmacy fields first, reference fields second, keys prefixed with
the owning side. -/
def format_result_row (pharmacy_row mhlw_row : List (Str × Value)) : List (Str × Str) :=
  let r1 := pharmacy_row.foldl (fun acc e =>
    if keepCol e.1 then acc ++ [("pharmacy_".data ++ e.1, safe_str e.2)] else acc) []
  mhlw_row.foldl (fun acc e =>
    if keepCol e.1 then acc ++ [("mhlw_".data ++ e.1, renderMhlwCell e.2)] else acc) r1

/-- Observable field of a formatted output row: the value stored under the
given key, `none` when the key is absent. -/
def rowField (o : List (Str × Str)) (k : Str) : Option Str :=
  (o.find? (fun e => e.1 == k)).map (fun e => e.2)

/-- Lookup maps from normalized key to the reference rows carrying it, in
insertion order (Python `dict.setdefault(key, []).append(row)`). -/
abbrev RowMap := List (Str × List Row)

/-- Model of `dict.get(key, [])`. -/
def mapGetD (m : RowMap) (k : Str) : List Row :=
  match m.find? (fun e => e.1 == k) with
  | some e => e.2
  | none => []

/-- Model of `dict.setdefault(key, []).append(row)`. -/
def mapAppend (m : RowMap) (k : Str) (r : Row) : RowMap :=
  if m.any (fun e => e.1 == k) then
    m.map (fun e => if e.1 == k then (e.1, e.2 ++ [r]) else e)
  else m ++ [(k, [r])]

/-- The three match indexes built per call (excel_matcher.py lines 176-178). -/
structure Maps where
  code_map : RowMap
  name_map : RowMap
  name_prefix_map : RowMap
deriving DecidableEq

/-- Normalized key of a row at an optional column position: `notna` value
stringified and normalized, otherwise the empty string (lines 183, 188,
204-209, 215-220). -/
def rowNormAt (row : Row) (oi : Option Nat) : Str :=
  match oi with
  | some i =>
    let raw := row.getD i .vNone
    if raw.notna then normalize_text (pyStr raw) else []
  | none => []

/-- One iteration of the index-building loop (excel_matcher.py lines
180-193). -/
def buildMapsStep (code_idx name_idx : Option Nat) (ms : Maps) (row : Row) : Maps :=
  let ms1 :=
    match code_idx with
    | some i =>
      let cn := rowNormAt row (some i)
      if cn.isEmpty then ms
      else { ms with code_map := mapAppend ms.code_map cn row }
    | none => ms
  match name_idx with
  | some i =>
    let nn := rowNormAt row (some i)
    if nn.isEmpty then ms1
    else
      let ms2 := { ms1 with name_map := mapAppend ms1.name_map nn row }
      if nn.length > 3 then
        { ms2 with name_prefix_map := mapAppend ms2.name_prefix_map (nn.take 5) row }
      else ms2
  | none => ms1

/-- The three match indexes built from the reference rows. -/
def buildMaps (code_idx name_idx : Option Nat) (rows : List Row) : Maps :=
  rows.foldl (buildMapsStep code_idx name_idx) ⟨[], [], []⟩

/-- The per-row match cascade (excel_matcher.py lines 199-224): code lookup
first; only when it yields nothing, exact name lookup; only when that is
empty and the name is longer than 3 characters, the 5-character prefix
lookup. -/
def rowMatchesFn (maps : Maps) (ph_code_idx ph_name_idx : Option Nat) (row : Row) : List Row :=
  let ms : List Row :=
    match ph_code_idx with
    | some i =>
      let code := rowNormAt row (some i)
      if code.isEmpty then [] else mapGetD maps.code_map code
    | none => []
  if ms.isEmpty then
    match ph_name_idx with
    | some i =>
      let name := rowNormAt row (some i)
      if name.isEmpty then []
      else
        let ms2 := mapGetD maps.name_map name
        if ms2.isEmpty && decide (name.length > 3) then
          mapGetD maps.name_prefix_map (name.take 5)
        else ms2
    | none => []
  else ms

/-- Python truthiness of an optional column name (`if col:`): present and
non-empty. -/
def truthy (o : Option Str) : Bool :=
  match o with
  | some s => !s.isEmpty
  | none => false

/-- The recency test of a matched pharmacy row (excel_matcher.py lines
240-251): with no update-date column every match is recent; otherwise some
matched reference row must carry a non-missing date at or after the cutoff. -/
def hasRecent (update_date_column : Option Str) (update_idx : Option Nat) (cutoff : Int)
    (mlist : List Row) : Bool :=
  if truthy update_date_column then
    mlist.any (fun mrow =>
      let ud :=
        match update_idx with
        | some i => mrow.getD i .vNone
        | none => .vNone
      match ud with
      | .vDate t => decide (cutoff ≤ t)
      | _ => false)
  else true

/-- Model of `ph_cols.index(col) if col else None` (lines 196-197). -/
def phIdx (cols : List Str) (oc : Option Str) : Option Nat :=
  match oc with
  | some c => if c.isEmpty then none else cols.findIdx? (fun x => x == c)
  | none => none

/-- Model of `mhlw_col_index.get(col)` (lines 172-174). -/
def colIdxGet (cols : List Str) (oc : Option Str) : Option Nat :=
  match oc with
  | some c => cols.findIdx? (fun x => x == c)
  | none => none

/-- The matcher state after loading: the reference table (or `none` when the
load failed) and its resolved columns.  The loader's file IO is the model
boundary: a read failure surfaces as `mhlw_df = none`. -/
structure Matcher where
  mhlw_df : Option Table
  update_date_column : Option Str
  drug_code_column : Option Str
  drug_name_column : Option Str
deriving DecidableEq

/-- Model of `pd.to_datetime(column, errors="coerce")` on an already-typed
cell: a datetime stays, anything not representing a date becomes missing. -/
def coerceDate : Value → Value
  | .vDate t => .vDate t
  | _ => .vNone

/-- Coerce the resolved update-date column of every row (lines 113-116). -/
def coerceUpdateColumn (cols : List Str) (oc : Option Str) (rows : List Row) : List Row :=
  match oc with
  | none => rows
  | some c => rows.map (fun r => (cols.zip r).map (fun e => if e.1 == c then coerceDate e.2 else e.2))

/-- Model of the pure tail of `_load_mhlw_data` (lines 101-116): resolve the
update-date, drug-code and drug-name columns of the loaded reference table
and coerce the update-date column; a failed load yields the unloaded state. -/
def mkMatcher (odf : Option Table) : Matcher :=
  match odf with
  | none =>
    { mhlw_df := none, update_date_column := none, drug_code_column := none,
      drug_name_column := none }
  | some df =>
    let u := find_column df.cols [UPDATE_DATE_COLUMN_PATTERN]
    let c := find_column df.cols DRUG_CODE_COLUMN_PATTERNS
    let n := find_column df.cols DRUG_NAME_COLUMN_PATTERNS
    { mhlw_df := some { cols := df.cols, rows := coerceUpdateColumn df.cols u df.rows },
      update_date_column := u, drug_code_column := c, drug_name_column := n }

/-- The `stats` component of a match result. -/
structure Stats where
  pharmacy_rows : Nat
  matched_rows : Nat
  recent_updates : Nat
deriving DecidableEq

/-- The result of `match_and_filter`. -/
structure MatchResult where
  success : Bool
  message : Str
  data : List (List (Str × Str))
  stats : Stats
deriving DecidableEq

/-- Everything the per-row loop body reads but never writes. -/
structure MatchCtx where
  maps : Maps
  mhlw_cols : List Str
  ph_cols : List Str
  pharmacy_code_column : Option Str
  ph_code_idx : Option Nat
  ph_name_idx : Option Nat
  update_date_column : Option Str
  update_idx : Option Nat
  cutoff : Int

/-- The mutable state of the per-row loop. -/
structure LoopState where
  out : List (List (Str × Str))
  matched_codes : List Str
  matched_count : Nat
  recent_count : Nat
deriving DecidableEq

/-- The reference rows matched by one pharmacy row (lines 199-224). -/
def rowMatchesOf (ctx : MatchCtx) (row : Row) : List Row :=
  rowMatchesFn ctx.maps ctx.ph_code_idx ctx.ph_name_idx row

/-- The deduplication key of one pharmacy row: the safe-stringified raw code
cell, `self._safe_str(pharmacy_row_series.get(pharmacy_code_column, ""))`
(line 231). -/
def dedupKeyOf (ctx : MatchCtx) (row : Row) : Str :=
  safe_str (seriesGet (mkSeries ctx.ph_cols row) ctx.pharmacy_code_column)

/-- The emission gate of line 253: `has_recent or not update_date_column`. -/
def recentCondOf (ctx : MatchCtx) (ms : List Row) : Bool :=
  hasRecent ctx.update_date_column ctx.update_idx ctx.cutoff ms
    || !truthy ctx.update_date_column

/-- The single output row emitted for an accepted pharmacy row: the pharmacy
series joined with the series of the first matched reference row (lines
255-260). -/
def emitRowOf (ctx : MatchCtx) (row : Row) (ms : List Row) : List (Str × Str) :=
  format_result_row (mkSeries ctx.ph_cols row) (mkSeries ctx.mhlw_cols (ms.headD []))

/-- The body of the per-pharmacy-row loop (excel_matcher.py lines 199-260):
match, dedup on the safe-stringified code, count, recency-filter, emit. -/
def matchStep (ctx : MatchCtx) (st : LoopState) (row : Row) : LoopState :=
  let ms := rowMatchesOf ctx row
  if ms.isEmpty then st
  else
    let key := dedupKeyOf ctx row
    if !key.isEmpty && st.matched_codes.contains key then st
    else
      let st1 :=
        if !key.isEmpty then { st with matched_codes := st.matched_codes ++ [key] } else st
      let st2 := { st1 with matched_count := st1.matched_count + 1 }
      if recentCondOf ctx ms then
        { st2 with
          recent_count := st2.recent_count + 1,
          out := st2.out ++ [emitRowOf ctx row ms] }
      else st2

/-- The loop context built by `match_and_filter` before iterating. -/
def mkCtx (m : Matcher) (mdf : Table) (pharmacy : Table) (cutoff : Int) : MatchCtx :=
  let pharmacy_code_column := find_column pharmacy.cols DRUG_CODE_COLUMN_PATTERNS
  let pharmacy_name_column0 := find_column pharmacy.cols DRUG_NAME_COLUMN_PATTERNS
  let pharmacy_name_column :=
    if !truthy pharmacy_name_column0 && pharmacy.cols.length == 1 then
      some (pharmacy.cols.headD [])
    else pharmacy_name_column0
  let code_idx := colIdxGet mdf.cols m.drug_code_column
  let name_idx := colIdxGet mdf.cols m.drug_name_column
  { maps := buildMaps code_idx name_idx mdf.rows,
    mhlw_cols := mdf.cols,
    ph_cols := pharmacy.cols,
    pharmacy_code_column := pharmacy_code_column,
    ph_code_idx := phIdx pharmacy.cols pharmacy_code_column,
    ph_name_idx := phIdx pharmacy.cols pharmacy_name_column,
    update_date_column := m.update_date_column,
    update_idx := colIdxGet mdf.cols m.update_date_column,
    cutoff := cutoff }

/-- Model of `ExcelMatcher.match_and_filter` (excel_matcher.py lines
122-266).  `now` is the wall-clock instant `datetime.now()` of the call, as
a day count. -/
def match_and_filter (m : Matcher) (pharmacy : Table) (days_back : Int) (now : Int) :
    MatchResult :=
  let stats0 : Stats :=
    { pharmacy_rows := pharmacy.rows.length, matched_rows := 0, recent_updates := 0 }
  match m.mhlw_df with
  | none =>
    { success := false, message := "MHLW data not loaded".data, data := [], stats := stats0 }
  | some mdf =>
    if mdf.rows.isEmpty then
      { success := false, message := "MHLW data is empty".data, data := [], stats := stats0 }
    else
      let ctx := mkCtx m mdf pharmacy (now - days_back)
      let final := pharmacy.rows.foldl (matchStep ctx)
        { out := [], matched_codes := [], matched_count := 0, recent_count := 0 }
      { success := true,
        message := "Matched ".data ++ (toString final.out.length).data
          ++ " drugs with recent updates".data,
        data := final.out,
        stats := { pharmacy_rows := pharmacy.rows.length,
                   matched_rows := final.matched_count,
                   recent_updates := final.recent_count } }

theorem toNat_ofNat_valid (n : Nat) (h : n < 0xD800) : (Char.ofNat n).toNat = n := by
  have hv : n.isValidChar := Or.inl h
  simp [Char.ofNat, hv, Char.ofNatAux, Char.toNat, UInt32.toNat]

theorem nfkc_fixed (d : Char) (h1 : ¬ (0xFF01 ≤ d.toNat ∧ d.toNat ≤ 0xFF5E))
    (h2 : d.toNat ≠ 0x3000) : nfkcChar d = d := by
  unfold nfkcChar
  rw [if_neg h1, if_neg h2]

theorem lower_fixed (c : Char) (h : ¬ (65 ≤ c.toNat ∧ c.toNat ≤ 90)) :
    lowerChar c = c := by
  unfold lowerChar
  rw [if_neg h]

/-- The width folding either lands in the ASCII range or leaves the character
unchanged (and then the character is outside the folded ranges). -/
theorem nfkc_out (c : Char) : (nfkcChar c).toNat ≤ 0x7E ∨
    (nfkcChar c = c ∧ ¬ (0xFF01 ≤ c.toNat ∧ c.toNat ≤ 0xFF5E) ∧ c.toNat ≠ 0x3000) := by
  unfold nfkcChar
  split_ifs with h1 h2
  · left
    rw [toNat_ofNat_valid _ (by omega)]
    omega
  · left
    decide
  · right
    exact ⟨rfl, h1, h2⟩

/-- Lowercasing either shifts an ASCII uppercase letter into the lowercase
range or leaves the character unchanged. -/
theorem lower_out (c : Char) :
    ((lowerChar c).toNat = c.toNat + 32 ∧ 65 ≤ c.toNat ∧ c.toNat ≤ 90) ∨
    (lowerChar c = c ∧ ¬ (65 ≤ c.toNat ∧ c.toNat ≤ 90)) := by
  unfold lowerChar
  split_ifs with h
  · left
    exact ⟨toNat_ofNat_valid _ (by omega), h⟩
  · right
    exact ⟨rfl, h⟩

theorem nfkcChar_nfkcChar (c : Char) : nfkcChar (nfkcChar c) = nfkcChar c := by
  rcases nfkc_out c with h | h
  · exact nfkc_fixed _ (by omega) (by omega)
  · rw [h.1, h.1]

theorem lowerChar_toNat_le (c : Char) (h : c.toNat ≤ 0x7E) :
    (lowerChar c).toNat ≤ 0x7E := by
  rcases lower_out c with h1 | h1
  · omega
  · rw [h1.1]
    exact h

theorem lowerChar_lowerChar (c : Char) : lowerChar (lowerChar c) = lowerChar c := by
  rcases lower_out c with h | h
  · exact lower_fixed _ (by omega)
  · rw [h.1, h.1]

/-- After folding, lowercasing keeps a character inside the folded fragment:
applying the width folding again changes nothing. -/
theorem nfkcChar_lowerChar_nfkcChar (c : Char) :
    nfkcChar (lowerChar (nfkcChar c)) = lowerChar (nfkcChar c) := by
  rcases nfkc_out c with h | h
  · have := lowerChar_toNat_le (nfkcChar c) h
    exact nfkc_fixed _ (by omega) (by omega)
  · rw [h.1]
    rcases lower_out c with h2 | h2
    · exact nfkc_fixed _ (by omega) (by omega)
    · rw [h2.1]
      exact nfkc_fixed _ h.2.1 h.2.2

theorem dropWhile_idem (p : Char → Bool) (l : Str) :
    (l.dropWhile p).dropWhile p = l.dropWhile p := by
  induction l with
  | nil => rfl
  | cons a t ih =>
    by_cases h : p a
    · simp [List.dropWhile_cons, h, ih]
    · simp [List.dropWhile_cons, h]

theorem head_dropWhile_not (p : Char → Bool) (l : Str) (hne : (l.dropWhile p) ≠ []) :
    ¬ p ((l.dropWhile p).head hne) := by
  induction l with
  | nil => simp at hne
  | cons a t ih =>
    by_cases h : p a
    · simp only [List.dropWhile_cons, h, if_true] at hne ⊢
      exact ih hne
    · simp [List.dropWhile_cons, h]

theorem dropWhile_eq_self_of_head (p : Char → Bool) (l : Str)
    (h : ∀ hne : l ≠ [], ¬ p (l.head hne)) : l.dropWhile p = l := by
  cases l with
  | nil => rfl
  | cons a t =>
    have := h (by simp)
    simp only [List.head_cons] at this
    simp [List.dropWhile_cons, this]

/-- A front-clean list stays front-clean when restricted to a prefix. -/
theorem frontClean_of_prefix (p : Char → Bool) (y l : Str) (hyl : y <+: l)
    (hl : l.dropWhile p = l) : y.dropWhile p = y := by
  cases y with
  | nil => rfl
  | cons a ys =>
    obtain ⟨t, rfl⟩ := hyl
    by_cases hpa : p a
    · exfalso
      have hlen := (List.dropWhile_sublist (l := ys ++ t) p).length_le
      rw [List.cons_append, List.dropWhile_cons, if_pos hpa] at hl
      have := congrArg List.length hl
      simp only [List.length_cons, List.length_append] at this
      simp only [List.length_append] at hlen
      omega
    · simp [List.dropWhile_cons, hpa]

theorem stripStr_idem (l : Str) : stripStr (stripStr l) = stripStr l := by
  have hfa : (l.dropWhile isSpaceChar).dropWhile isSpaceChar
      = l.dropWhile isSpaceChar := dropWhile_idem _ _
  have hsuf : (l.dropWhile isSpaceChar).reverse.dropWhile isSpaceChar
      <:+ (l.dropWhile isSpaceChar).reverse := List.dropWhile_suffix _
  have hpref : ((l.dropWhile isSpaceChar).reverse.dropWhile isSpaceChar).reverse
      <+: l.dropWhile isSpaceChar := by
    have h := List.reverse_prefix.mpr hsuf
    simpa using h
  have hfront : (stripStr l).dropWhile isSpaceChar = stripStr l :=
    frontClean_of_prefix _ _ _ hpref hfa
  have hback : (stripStr l).reverse.dropWhile isSpaceChar = (stripStr l).reverse := by
    show ((((l.dropWhile isSpaceChar).reverse.dropWhile isSpaceChar).reverse).reverse).dropWhile
          isSpaceChar
        = (((l.dropWhile isSpaceChar).reverse.dropWhile isSpaceChar).reverse).reverse
    rw [List.reverse_reverse]
    exact dropWhile_idem _ _
  show (((stripStr l).dropWhile isSpaceChar).reverse.dropWhile isSpaceChar).reverse = stripStr l
  rw [hfront, hback, List.reverse_reverse]

theorem mem_stripStr (c : Char) (l : Str) (h : c ∈ stripStr l) : c ∈ l := by
  unfold stripStr at h
  rw [List.mem_reverse] at h
  have h1 := List.dropWhile_sublist (l := (l.dropWhile isSpaceChar).reverse) isSpaceChar
  have h2 := h1.mem h
  rw [List.mem_reverse] at h2
  exact (List.dropWhile_sublist isSpaceChar).mem h2

theorem map_eq_self_of_fixed {f : Char → Char} {l : Str}
    (h : ∀ c ∈ l, f c = c) : l.map f = l := by
  induction l with
  | nil => rfl
  | cons a t ih =>
    simp only [List.map_cons]
    rw [h a (by simp), ih (fun c hc => h c (by simp [hc]))]

/-- Concrete reference table used to exercise the theorems: one code column
with a single shortage row. -/
def exMhlwTable : Table :=
  { cols := ["薬品コード".data], rows := [[Value.vStr "abc".data]] }

/-- Concrete pharmacy upload used to exercise the theorems. -/
def exPharmacyTable : Table :=
  { cols := ["薬品コード".data],
    rows := [[Value.vStr "ＡＢＣ".data], [Value.vStr "ABC".data]] }

/-- The matcher built over the concrete reference table. -/
def exMatcher : Matcher := mkMatcher (some exMhlwTable)

/-- The loop context of the concrete run (cutoff 0). -/
def exCtx : MatchCtx := mkCtx exMatcher exMhlwTable exPharmacyTable 0

/-- A reference table carrying only a drug-name column. -/
def exMhlwNameTable : Table :=
  { cols := ["品名".data], rows := [[Value.vStr "ねむり".data]] }

/-- A two-column pharmacy upload whose row has a missing code cell and a
name that matches the name-only reference table. -/
def exPharmacyTwoCol : Table :=
  { cols := ["薬品コード".data, "品名".data],
    rows := [[Value.vNone, Value.vStr "ねむり".data]] }

/-- The loop context of the name-only concrete run. -/
def exCtxName : MatchCtx :=
  mkCtx (mkMatcher (some exMhlwNameTable)) exMhlwNameTable exPharmacyTwoCol 0

theorem foldl_filterMap_aux {α β : Type} (p : α → Bool) (g : α → β) (l : List α)
    (acc : List β) :
    l.foldl (fun a e => if p e then a ++ [g e] else a) acc
      = acc ++ l.filterMap (fun e => if p e then some (g e) else none) := by
  induction l generalizing acc with
  | nil => simp
  | cons x t ih =>
    by_cases hx : p x
    · simp [List.foldl_cons, hx, ih, List.filterMap_cons]
    · simp [List.foldl_cons, hx, ih, List.filterMap_cons]

/-- C8 — `match_and_filter` with an unavailable reference table: a failed
load (absent table) yields `success = false` with message `MHLW data not
loaded`; a loaded but empty table yields the distinct message `MHLW data is
empty`; both results are total values, no exception escapes. -/
theorem match_and_filter_unavailable (m : Matcher) (ph : Table) (db now : Int) :
    (m.mhlw_df = none →
      match_and_filter m ph db now =
        { success := false, message := "MHLW data not loaded".data, data := [],
          stats := { pharmacy_rows := ph.rows.length, matched_rows := 0,
                     recent_updates := 0 } }) ∧
    (∀ t : Table, m.mhlw_df = some t → t.rows = [] →
      match_and_filter m ph db now =
        { success := false, message := "MHLW data is empty".data, data := [],
          stats := { pharmacy_rows := ph.rows.length, matched_rows := 0,
                     recent_updates := 0 } }) := by
  constructor
  · intro h
    unfold match_and_filter
    rw [h]
  · intro t ht hrows
    unfold match_and_filter
    rw [ht]
    simp [hrows]

theorem match_and_filter_unavailable_witness :
    match_and_filter (mkMatcher none) { cols := [], rows := [] } 10 0 =
      { success := false, message := "MHLW data not loaded".data, data := [],
        stats := { pharmacy_rows := 0, matched_rows := 0, recent_updates := 0 } } ∧
    match_and_filter (mkMatcher (some { cols := ["x".data], rows := [] }))
        { cols := [], rows := [] } 10 0 =
      { success := false, message := "MHLW data is empty".data, data := [],
        stats := { pharmacy_rows := 0, matched_rows := 0, recent_updates := 0 } } :=
  ⟨(match_and_filter_unavailable (mkMatcher none) { cols := [], rows := [] } 10 0).1 rfl,
   (match_and_filter_unavailable (mkMatcher (some { cols := ["x".data], rows := [] }))
       { cols := [], rows := [] } 10 0).2
     { cols := ["x".data], rows := [] } (by decide) rfl⟩

/-- C6 counterexample — the semantic fallback is not a single fourth tier
tie-broken by schema order: with patterns that are both code-related and
name-related, the resolver prefers the code-looking column `ABコード` even
though the name-looking column `品名` comes first in the schema, while the
claimed single-tier reading returns `品名`. -/
theorem find_column_tier4_counterexample :
    find_column ["品名".data, "ABコード".data] ["薬品コード".data, "薬名XY".data]
        = some "ABコード".data ∧
    find_column_claimed ["品名".data, "ABコード".data] ["薬品コード".data, "薬名XY".data]
        = some "品名".data ∧
    some ("ABコード".data : Str) ≠ some ("品名".data : Str) := by
  refine ⟨by decide, by decide, by decide⟩

/-- C6 amended — `find_column` evaluates five ordered stages: exact match,
case-insensitive substring, normalized substring, then the semantic code
fallback and only after it the semantic name fallback; it stops at the first
stage returning a column, ties within a stage go to the earliest schema
column (`List.find?`), and it returns `none` when no stage matches. -/
theorem find_column_tiers (cols patterns : List Str) :
    find_column cols patterns =
      ((tierExact cols patterns).orElse (fun _ =>
        (tierCaseFold cols patterns).orElse (fun _ =>
          (tierNormFold cols patterns).orElse (fun _ =>
            (tierSemanticCode cols patterns).orElse (fun _ =>
              tierSemanticName cols patterns))))) := by
  unfold find_column tierExact tierCaseFold tierNormFold tierSemanticCode tierSemanticName
  unfold codeRelatedPats codeRelatedCol nameRelatedPats nameRelatedCol
  cases cols.find? (fun col => patterns.any (fun p => col == p)) with
  | some c => rfl
  | none =>
    cases cols.find? (fun col =>
        patterns.any (fun p => strContains (lowerStr p) (lowerStr col))) with
    | some c => rfl
    | none =>
      cases cols.find? (fun col =>
          patterns.any (fun p => strContains (normalize_text p) (normalize_text col))) with
      | some c => rfl
      | none =>
        by_cases h4 : patterns.any (fun p =>
            strContains "code".data (lowerStr p) || strContains "コード".data p)
        · rw [if_pos h4]
          cases cols.find? (fun col =>
              strContains "コード".data col || strContains "code".data (lowerStr col)) with
          | some c => rfl
          | none => rfl
        · rw [if_neg h4]
          rfl

/-- C7 counterexample — `_format_result_row` does not render pharmacy-side
date values as `YYYY-MM-DD` (they pass through the generic stringifier,
keeping the zero time-of-day), and a field whose column name is the empty
string is dropped even though it does not start with an underscore. -/
theorem format_result_row_counterexample :
    format_result_row [([], .vStr "x".data), ("d".data, .vDate 0)] []
        = [("pharmacy_d".data, "1970-01-01 00:00:00".data)] ∧
    strftimeYMD 0 = "1970-01-01".data ∧
    ("1970-01-01 00:00:00".data : Str) ≠ "1970-01-01".data ∧
    keepCol [] = false := by
  refine ⟨by decide, by decide, by decide, rfl⟩

theorem format_result_row_split (ph mh : List (Str × Value)) :
    format_result_row ph mh =
      (ph.filterMap (fun e =>
        if keepCol e.1 then some ("pharmacy_".data ++ e.1, safe_str e.2) else none))
      ++ (mh.filterMap (fun e =>
        if keepCol e.1 then some ("mhlw_".data ++ e.1, renderMhlwCell e.2) else none)) := by
  have h1 := foldl_filterMap_aux (fun e : Str × Value => keepCol e.1)
      (fun e => ("pharmacy_".data ++ e.1, safe_str e.2)) ph []
  have h2 := foldl_filterMap_aux (fun e : Str × Value => keepCol e.1)
      (fun e => ("mhlw_".data ++ e.1, renderMhlwCell e.2)) mh
      (ph.foldl (fun acc e =>
        if keepCol e.1 then acc ++ [("pharmacy_".data ++ e.1, safe_str e.2)] else acc) [])
  unfold format_result_row
  rw [h2, h1]
  simp

/-- C7 amended — `_format_result_row` keeps exactly the fields whose column
name is non-empty and does not start with an underscore: pharmacy fields
first under `pharmacy_<col>` rendered through `_safe_str` (dates included,
stringified as-is), then reference fields under `mhlw_<col>` where only
date-typed values render as `YYYY-MM-DD` and everything else goes through
`_safe_str` (missing becomes the empty string). -/
theorem format_result_row_amended (ph mh : List (Str × Value)) :
    format_result_row ph mh =
      (ph.filterMap (fun e =>
        if keepCol e.1 then some ("pharmacy_".data ++ e.1, safe_str e.2) else none))
      ++ (mh.filterMap (fun e =>
        if keepCol e.1 then some ("mhlw_".data ++ e.1, renderMhlwCell e.2) else none)) :=
  format_result_row_split ph mh

/-- C9 — `normalize_text` is idempotent: folding, lowercasing and stripping
an already-normalized string changes nothing. -/
theorem normalize_text_idem (s : Str) :
    normalize_text (normalize_text s) = normalize_text s := by
  unfold normalize_text
  set y := stripStr ((s.map nfkcChar).map lowerChar) with hy
  have hfix : ∀ c ∈ y, nfkcChar c = c ∧ lowerChar c = c := by
    intro c hc
    have hmem : c ∈ (s.map nfkcChar).map lowerChar := mem_stripStr c _ (hy ▸ hc)
    rw [List.mem_map] at hmem
    obtain ⟨d, hd, hdc⟩ := hmem
    rw [List.mem_map] at hd
    obtain ⟨a, _, hda⟩ := hd
    subst hdc; subst hda
    exact ⟨nfkcChar_lowerChar_nfkcChar a, lowerChar_lowerChar (nfkcChar a)⟩
  rw [map_eq_self_of_fixed (fun c hc => (hfix c hc).1)]
  rw [map_eq_self_of_fixed (fun c hc => (hfix c hc).2)]
  rw [hy, stripStr_idem]

theorem foldl_inv {σ α : Type} (f : σ → α → σ) (P : σ → Prop)
    (hstep : ∀ s a, P s → P (f s a)) :
    ∀ (l : List α) (s : σ), P s → P (l.foldl f s) := by
  intro l
  induction l with
  | nil => intro s hs; exact hs
  | cons x t ih =>
    intro s hs
    exact ih _ (hstep _ _ hs)

theorem foldl_rel {σ τ α : Type} (f : σ → α → σ) (g : τ → α → τ) (R : σ → τ → Prop)
    (hstep : ∀ s t a, R s t → R (f s a) (g t a)) :
    ∀ (l : List α) (s : σ) (t : τ), R s t → R (l.foldl f s) (l.foldl g t) := by
  intro l
  induction l with
  | nil => intro s t hs; exact hs
  | cons x xs ih =>
    intro s t hs
    exact ih _ _ (hstep _ _ _ hs)

/-- Exhaustive description of one loop iteration: skip on no match, skip on
duplicate key, otherwise count the row, record its key when non-empty and
emit exactly when the recency gate passes. -/
theorem matchStep_cases (ctx : MatchCtx) (st : LoopState) (row : Row) :
    ((rowMatchesOf ctx row).isEmpty = true ∧ matchStep ctx st row = st) ∨
    ((rowMatchesOf ctx row).isEmpty = false ∧
      (!(dedupKeyOf ctx row).isEmpty && st.matched_codes.contains (dedupKeyOf ctx row)) = true ∧
      matchStep ctx st row = st) ∨
    ((rowMatchesOf ctx row).isEmpty = false ∧
      (!(dedupKeyOf ctx row).isEmpty && st.matched_codes.contains (dedupKeyOf ctx row)) = false ∧
      matchStep ctx st row =
        { out := if recentCondOf ctx (rowMatchesOf ctx row) then
                   st.out ++ [emitRowOf ctx row (rowMatchesOf ctx row)] else st.out,
          matched_codes := if !(dedupKeyOf ctx row).isEmpty then
                   st.matched_codes ++ [dedupKeyOf ctx row] else st.matched_codes,
          matched_count := st.matched_count + 1,
          recent_count := if recentCondOf ctx (rowMatchesOf ctx row) then
                   st.recent_count + 1 else st.recent_count }) := by
  by_cases h1 : (rowMatchesOf ctx row).isEmpty = true
  · refine Or.inl ⟨h1, ?_⟩
    simp only [matchStep]
    rw [if_pos h1]
  · by_cases h2 :
        (!(dedupKeyOf ctx row).isEmpty && st.matched_codes.contains (dedupKeyOf ctx row)) = true
    · refine Or.inr (Or.inl ⟨by simpa using h1, h2, ?_⟩)
      simp only [matchStep]
      rw [if_neg h1, if_pos h2]
    · refine Or.inr (Or.inr ⟨by simpa using h1, by simpa using h2, ?_⟩)
      simp only [matchStep]
      rw [if_neg h1, if_neg h2]
      by_cases h3 : recentCondOf ctx (rowMatchesOf ctx row) = true <;>
        by_cases h4 : (!(dedupKeyOf ctx row).isEmpty) = true <;>
          simp [h3, h4]

theorem matchStep_matched_le (ctx : MatchCtx) (st : LoopState) (row : Row) :
    (matchStep ctx st row).matched_count ≤ st.matched_count + 1 := by
  rcases matchStep_cases ctx st row with ⟨_, he⟩ | ⟨_, _, he⟩ | ⟨_, _, he⟩ <;> rw [he] <;> omega

theorem matchStep_out_recent (ctx : MatchCtx) (st : LoopState) (row : Row)
    (h : st.out.length = st.recent_count) :
    (matchStep ctx st row).out.length = (matchStep ctx st row).recent_count := by
  rcases matchStep_cases ctx st row with ⟨_, he⟩ | ⟨_, _, he⟩ | ⟨_, _, he⟩ <;> rw [he]
  · exact h
  · exact h
  · by_cases h3 : recentCondOf ctx (rowMatchesOf ctx row) <;> simp [h3, h]

theorem matchStep_recent_le_matched (ctx : MatchCtx) (st : LoopState) (row : Row)
    (h : st.recent_count ≤ st.matched_count) :
    (matchStep ctx st row).recent_count ≤ (matchStep ctx st row).matched_count := by
  rcases matchStep_cases ctx st row with ⟨_, he⟩ | ⟨_, _, he⟩ | ⟨_, _, he⟩ <;> rw [he]
  · exact h
  · exact h
  · by_cases h3 : recentCondOf ctx (rowMatchesOf ctx row) <;> simp [h3] <;> omega

theorem foldl_matchStep_matched_le (ctx : MatchCtx) :
    ∀ (rows : List Row) (st : LoopState),
      (rows.foldl (matchStep ctx) st).matched_count ≤ st.matched_count + rows.length := by
  intro rows
  induction rows with
  | nil => intro st; simp
  | cons r t ih =>
    intro st
    have h1 := ih (matchStep ctx st r)
    have h2 := matchStep_matched_le ctx st r
    simp only [List.foldl_cons, List.length_cons]
    omega

/-- C10 — result invariants: the emitted data has exactly one row per
counted recent update, `recent_updates ≤ matched_rows ≤ pharmacy_rows`,
`pharmacy_rows` always reports the input size, and on the failure paths the
data is empty with both counters zero. -/
theorem match_and_filter_invariants (m : Matcher) (ph : Table) (db now : Int) :
    (match_and_filter m ph db now).data.length
        = (match_and_filter m ph db now).stats.recent_updates ∧
    (match_and_filter m ph db now).stats.recent_updates
        ≤ (match_and_filter m ph db now).stats.matched_rows ∧
    (match_and_filter m ph db now).stats.matched_rows
        ≤ (match_and_filter m ph db now).stats.pharmacy_rows ∧
    (match_and_filter m ph db now).stats.pharmacy_rows = ph.rows.length ∧
    ((match_and_filter m ph db now).success = false →
      (match_and_filter m ph db now).data = [] ∧
      (match_and_filter m ph db now).stats.matched_rows = 0 ∧
      (match_and_filter m ph db now).stats.recent_updates = 0) := by
  cases hdf : m.mhlw_df with
  | none => simp [match_and_filter, hdf]
  | some mdf =>
    by_cases hemp : mdf.rows.isEmpty = true
    · simp [match_and_filter, hdf, hemp]
    · have hinv := foldl_inv (matchStep (mkCtx m mdf ph (now - db)))
        (fun s => s.out.length = s.recent_count ∧ s.recent_count ≤ s.matched_count)
        (fun s a hs => ⟨matchStep_out_recent _ _ _ hs.1, matchStep_recent_le_matched _ _ _ hs.2⟩)
        ph.rows { out := [], matched_codes := [], matched_count := 0, recent_count := 0 }
        ⟨rfl, Nat.le_refl 0⟩
      have hle := foldl_matchStep_matched_le (mkCtx m mdf ph (now - db)) ph.rows
        { out := [], matched_codes := [], matched_count := 0, recent_count := 0 }
      simp only [match_and_filter, hdf]
      rw [if_neg hemp]
      refine ⟨hinv.1, hinv.2, ?_, rfl, ?_⟩
      · simpa using hle
      · intro hfalse
        simp at hfalse

theorem matchStep_matched_components (ctx : MatchCtx) (s : LoopState) (row : Row) :
    (matchStep ctx s row).matched_codes =
      (if (rowMatchesOf ctx row).isEmpty = true then s.matched_codes
       else if (!(dedupKeyOf ctx row).isEmpty
                && s.matched_codes.contains (dedupKeyOf ctx row)) = true then s.matched_codes
       else if (!(dedupKeyOf ctx row).isEmpty) = true then s.matched_codes ++ [dedupKeyOf ctx row]
       else s.matched_codes) ∧
    (matchStep ctx s row).matched_count =
      (if (rowMatchesOf ctx row).isEmpty = true then s.matched_count
       else if (!(dedupKeyOf ctx row).isEmpty
                && s.matched_codes.contains (dedupKeyOf ctx row)) = true then s.matched_count
       else s.matched_count + 1) := by
  rcases matchStep_cases ctx s row with ⟨a1, ae⟩ | ⟨a1, a2, ae⟩ | ⟨a1, a2, ae⟩ <;> rw [ae] <;>
    constructor <;> split_ifs <;> simp_all

theorem matchStep_cutoff_rel (ctx : MatchCtx) (c1 c2 : Int) (s t : LoopState) (row : Row)
    (h1 : s.matched_codes = t.matched_codes) (h2 : s.matched_count = t.matched_count) :
    (matchStep { ctx with cutoff := c1 } s row).matched_codes
        = (matchStep { ctx with cutoff := c2 } t row).matched_codes ∧
    (matchStep { ctx with cutoff := c1 } s row).matched_count
        = (matchStep { ctx with cutoff := c2 } t row).matched_count := by
  have ems : rowMatchesOf { ctx with cutoff := c1 } row
      = rowMatchesOf { ctx with cutoff := c2 } row := rfl
  have ekey : dedupKeyOf { ctx with cutoff := c1 } row
      = dedupKeyOf { ctx with cutoff := c2 } row := rfl
  obtain ⟨m1, n1⟩ := matchStep_matched_components { ctx with cutoff := c1 } s row
  obtain ⟨m2, n2⟩ := matchStep_matched_components { ctx with cutoff := c2 } t row
  rw [m1, n1, m2, n2, ems, ekey, h1, h2]
  exact ⟨rfl, rfl⟩

/-- C5 — `days_back` is a pure filter parameter: with the same `now`, two
calls with different `days_back` agree on `stats.pharmacy_rows`,
`stats.matched_rows` and `success`; only the recency counter and the emitted
data can differ. -/
theorem match_and_filter_days_back (m : Matcher) (ph : Table) (d1 d2 now : Int) :
    (match_and_filter m ph d1 now).stats.pharmacy_rows
        = (match_and_filter m ph d2 now).stats.pharmacy_rows ∧
    (match_and_filter m ph d1 now).stats.matched_rows
        = (match_and_filter m ph d2 now).stats.matched_rows ∧
    (match_and_filter m ph d1 now).success = (match_and_filter m ph d2 now).success := by
  cases hdf : m.mhlw_df with
  | none => simp [match_and_filter, hdf]
  | some mdf =>
    by_cases hemp : mdf.rows.isEmpty = true
    · simp [match_and_filter, hdf, hemp]
    · have hrel := foldl_rel
        (matchStep { mkCtx m mdf ph 0 with cutoff := now - d1 })
        (matchStep { mkCtx m mdf ph 0 with cutoff := now - d2 })
        (fun s t => s.matched_codes = t.matched_codes ∧ s.matched_count = t.matched_count)
        (fun s t a h => matchStep_cutoff_rel (mkCtx m mdf ph 0) (now - d1) (now - d2) s t a h.1 h.2)
        ph.rows
        { out := [], matched_codes := [], matched_count := 0, recent_count := 0 }
        { out := [], matched_codes := [], matched_count := 0, recent_count := 0 }
        ⟨rfl, rfl⟩
      have hc1 : mkCtx m mdf ph (now - d1) = { mkCtx m mdf ph 0 with cutoff := now - d1 } := rfl
      have hc2 : mkCtx m mdf ph (now - d2) = { mkCtx m mdf ph 0 with cutoff := now - d2 } := rfl
      simp only [match_and_filter, hdf]
      rw [if_neg hemp, if_neg hemp, hc1, hc2]
      exact ⟨rfl, hrel.2, rfl⟩

theorem recentCond_of_none (ctx : MatchCtx) (h : ctx.update_date_column = none)
    (ms : List Row) : recentCondOf ctx ms = true := by
  simp [recentCondOf, truthy, h]

theorem matchStep_recent_eq_matched (ctx : MatchCtx) (h : ctx.update_date_column = none)
    (st : LoopState) (row : Row) (hs : st.recent_count = st.matched_count) :
    (matchStep ctx st row).recent_count = (matchStep ctx st row).matched_count := by
  rcases matchStep_cases ctx st row with ⟨_, he⟩ | ⟨_, _, he⟩ | ⟨_, _, he⟩ <;> rw [he]
  · exact hs
  · exact hs
  · rw [recentCond_of_none ctx h]
    simp [hs]

theorem matchValue_date_iff (ud : Value) (cutoff : Int) :
    ((match ud with
      | Value.vDate t => decide (cutoff ≤ t)
      | _ => false) = true) ↔ ∃ t : Int, ud = Value.vDate t ∧ cutoff ≤ t := by
  cases ud <;> simp

/-- C2 — the recency predicate: with no resolved update-date column every
match is recent, so `recent_updates = matched_rows` for every `days_back`;
otherwise a matched row is recent exactly when some matched reference row
carries a non-missing update-date at or after the cutoff, the bound being
inclusive (a date equal to `cutoff` is recent, a date one day older alone is
not). -/
theorem match_and_filter_recency (m : Matcher) (ph : Table) (db now : Int)
    (uc : Option Str) (ui : Option Nat) (cutoff : Int) (ms : List Row) :
    (m.update_date_column = none →
      (match_and_filter m ph db now).stats.recent_updates
        = (match_and_filter m ph db now).stats.matched_rows) ∧
    (truthy uc = true →
      (hasRecent uc ui cutoff ms = true ↔
        ∃ mrow ∈ ms, ∃ t : Int,
          (match ui with
           | some i => mrow.getD i Value.vNone
           | none => Value.vNone) = Value.vDate t ∧ cutoff ≤ t)) ∧
    (∀ (i : Nat) (r : Row) (t : Int), truthy uc = true →
      r.getD i Value.vNone = Value.vDate t → cutoff ≤ t →
      hasRecent uc (some i) cutoff [r] = true) ∧
    (∀ (i : Nat) (r : Row), truthy uc = true →
      r.getD i Value.vNone = Value.vDate (cutoff - 1) →
      hasRecent uc (some i) cutoff [r] = false) := by
  refine ⟨?_, ?_, ?_, ?_⟩
  · intro h
    cases hdf : m.mhlw_df with
    | none => simp [match_and_filter, hdf]
    | some mdf =>
      by_cases hemp : mdf.rows.isEmpty = true
      · simp [match_and_filter, hdf, hemp]
      · have hctxu : (mkCtx m mdf ph (now - db)).update_date_column = none := h
        have hinv := foldl_inv (matchStep (mkCtx m mdf ph (now - db)))
          (fun s => s.recent_count = s.matched_count)
          (fun s a hs => matchStep_recent_eq_matched _ hctxu _ _ hs)
          ph.rows { out := [], matched_codes := [], matched_count := 0, recent_count := 0 }
          rfl
        simp only [match_and_filter, hdf]
        rw [if_neg hemp]
        exact hinv
  · intro ht
    unfold hasRecent
    rw [if_pos ht, List.any_eq_true]
    refine exists_congr fun mrow => and_congr_right fun _ => ?_
    exact matchValue_date_iff _ _
  · intro i r t ht hget hle
    unfold hasRecent
    rw [if_pos ht]
    simp only [List.any_cons, List.any_nil, Bool.or_false]
    rw [hget]
    simp [hle]
  · intro i r ht hget
    unfold hasRecent
    rw [if_pos ht]
    simp only [List.any_cons, List.any_nil, Bool.or_false]
    rw [hget]
    simp only [decide_eq_false_iff_not]
    omega

theorem match_and_filter_recency_witness :
    (match_and_filter
        (mkMatcher (some { cols := ["薬品コード".data], rows := [[.vStr "abc".data]] }))
        { cols := ["薬品コード".data], rows := [[.vStr "ABC".data]] } 10 0).stats.recent_updates
      = (match_and_filter
        (mkMatcher (some { cols := ["薬品コード".data], rows := [[.vStr "abc".data]] }))
        { cols := ["薬品コード".data], rows := [[.vStr "ABC".data]] } 10 0).stats.matched_rows ∧
    hasRecent (some "u".data) (some 0) 5 [[Value.vDate 5]] = true ∧
    hasRecent (some "u".data) (some 0) 5 [[Value.vDate 4]] = false :=
  ⟨(match_and_filter_recency
      (mkMatcher (some { cols := ["薬品コード".data], rows := [[.vStr "abc".data]] }))
      { cols := ["薬品コード".data], rows := [[.vStr "ABC".data]] } 10 0
      (some "u".data) (some 0) 5 []).1 (by decide),
   (match_and_filter_recency
      (mkMatcher (some { cols := ["薬品コード".data], rows := [[.vStr "abc".data]] }))
      { cols := ["薬品コード".data], rows := [[.vStr "ABC".data]] } 10 0
      (some "u".data) (some 0) 5 []).2.2.1 0 [Value.vDate 5] 5 rfl rfl (by omega),
   (match_and_filter_recency
      (mkMatcher (some { cols := ["薬品コード".data], rows := [[.vStr "abc".data]] }))
      { cols := ["薬品コード".data], rows := [[.vStr "ABC".data]] } 10 0
      (some "u".data) (some 0) 5 []).2.2.2 0 [Value.vDate 4] rfl rfl⟩

theorem match_and_filter_invariants_witness :
    (match_and_filter (mkMatcher none) { cols := [], rows := [[Value.vNone]] } 10 0).data = [] ∧
    (match_and_filter (mkMatcher none)
        { cols := [], rows := [[Value.vNone]] } 10 0).stats.matched_rows = 0 ∧
    (match_and_filter (mkMatcher none)
        { cols := [], rows := [[Value.vNone]] } 10 0).stats.recent_updates = 0 :=
  (match_and_filter_invariants (mkMatcher none)
      { cols := [], rows := [[Value.vNone]] } 10 0).2.2.2.2 rfl

theorem name_branch_eq (maps : Maps) (j : Nat) (row : Row) :
    (if (rowNormAt row (some j)).isEmpty = true then ([] : List Row)
     else
       if ((mapGetD maps.name_map (rowNormAt row (some j))).isEmpty
            && decide ((rowNormAt row (some j)).length > 3)) = true then
         mapGetD maps.name_prefix_map ((rowNormAt row (some j)).take 5)
       else mapGetD maps.name_map (rowNormAt row (some j))) =
    (if rowNormAt row (some j) = [] then []
     else if mapGetD maps.name_map (rowNormAt row (some j)) = [] ∧
              (rowNormAt row (some j)).length > 3 then
       mapGetD maps.name_prefix_map ((rowNormAt row (some j)).take 5)
     else mapGetD maps.name_map (rowNormAt row (some j))) := by
  simp only [List.isEmpty_iff, Bool.and_eq_true, decide_eq_true_eq]

/-- C3 — the match cascade: when the row has a non-empty normalized code
that is found in the code index, those rows are the matches and the name
indexes are never consulted (the result is invariant under replacing them);
otherwise the result is exactly the claimed name cascade: exact name lookup
only when a name column is resolved, and the 5-character-prefix lookup only
when the exact lookup is empty and the normalized name is longer than 3
characters. -/
theorem rowMatches_cascade (maps : Maps) (pci pni : Option Nat) (row : Row)
    (nm pm : RowMap) :
    (rowNormAt row pci ≠ [] → mapGetD maps.code_map (rowNormAt row pci) ≠ [] →
      rowMatchesFn maps pci pni row = mapGetD maps.code_map (rowNormAt row pci)) ∧
    (rowNormAt row pci ≠ [] → mapGetD maps.code_map (rowNormAt row pci) ≠ [] →
      rowMatchesFn { code_map := maps.code_map, name_map := nm, name_prefix_map := pm }
          pci pni row = rowMatchesFn maps pci pni row) ∧
    (mapGetD maps.code_map (rowNormAt row pci) = [] ∨ rowNormAt row pci = [] →
      rowMatchesFn maps pci pni row =
        (match pni with
         | some i =>
           if rowNormAt row (some i) = [] then []
           else if mapGetD maps.name_map (rowNormAt row (some i)) = [] ∧
                    (rowNormAt row (some i)).length > 3 then
             mapGetD maps.name_prefix_map ((rowNormAt row (some i)).take 5)
           else mapGetD maps.name_map (rowNormAt row (some i))
         | none => [])) := by
  refine ⟨?_, ?_, ?_⟩
  · intro hcode hget
    cases pci with
    | none => exact absurd rfl hcode
    | some i =>
      simp [rowMatchesFn, List.isEmpty_iff, hcode, hget]
  · intro hcode hget
    cases pci with
    | none => exact absurd rfl hcode
    | some i =>
      simp [rowMatchesFn, List.isEmpty_iff, hcode, hget]
  · intro hdisj
    cases pci with
    | none =>
      cases pni with
      | none => rfl
      | some j =>
        simp only [rowMatchesFn]
        rw [if_pos (show (List.isEmpty ([] : List Row)) = true from rfl)]
        exact name_branch_eq maps j row
    | some i =>
      have hms : (if (rowNormAt row (some i)).isEmpty = true then ([] : List Row)
          else mapGetD maps.code_map (rowNormAt row (some i))) = [] := by
        by_cases hc : (rowNormAt row (some i)).isEmpty = true
        · rw [if_pos hc]
        · rw [if_neg hc]
          rcases hdisj with h | h
          · exact h
          · exact absurd h (by simpa [List.isEmpty_iff] using hc)
      cases pni with
      | none =>
        simp only [rowMatchesFn]
        rw [hms]
        rfl
      | some j =>
        simp only [rowMatchesFn]
        rw [hms]
        rw [if_pos (show (List.isEmpty ([] : List Row)) = true from rfl)]
        exact name_branch_eq maps j row

theorem rowMatches_cascade_witness :
    rowMatchesFn
        { code_map := [("abc".data, [[Value.vStr "m".data]])],
          name_map := [("zz".data, [[Value.vInt 7]])], name_prefix_map := [] }
        (some 0) (some 0) [Value.vStr "ABC".data] = [[Value.vStr "m".data]] ∧
    rowMatchesFn
        { code_map := [("abc".data, [[Value.vStr "m".data]])],
          name_map := [("zz".data, [[Value.vInt 7]])], name_prefix_map := [] }
        (some 0) (some 0) [Value.vStr "zz".data] = [[Value.vInt 7]] :=
  ⟨((rowMatches_cascade
      { code_map := [("abc".data, [[Value.vStr "m".data]])],
        name_map := [("zz".data, [[Value.vInt 7]])], name_prefix_map := [] }
      (some 0) (some 0) [Value.vStr "ABC".data] [] []).1
      (by decide) (by decide)).trans (by decide),
   ((rowMatches_cascade
      { code_map := [("abc".data, [[Value.vStr "m".data]])],
        name_map := [("zz".data, [[Value.vInt 7]])], name_prefix_map := [] }
      (some 0) (some 0) [Value.vStr "zz".data] [] []).2.2
      (Or.inl (by decide))).trans (by decide)⟩

theorem mapGetD_mapAppend (m : RowMap) (k k2 : Str) (r : Row) :
    mapGetD (mapAppend m k r) k2 =
      mapGetD m k2 ++ (if k = k2 then [r] else []) := by
  unfold mapAppend mapGetD
  by_cases hany : m.any (fun e => e.1 == k) = true
  · rw [if_pos hany]
    rw [List.find?_map]
    have hcomp : ((fun e : Str × List Row => e.1 == k2)
        ∘ (fun e : Str × List Row => if e.1 == k then (e.1, e.2 ++ [r]) else e))
        = (fun e : Str × List Row => e.1 == k2) := by
      funext e
      by_cases he : e.1 = k <;> simp [he]
    rw [hcomp]
    cases hfind : m.find? (fun e => e.1 == k2) with
    | none =>
      by_cases hk : k = k2
      · exfalso
        rcases List.any_eq_true.mp hany with ⟨e, hme, hek⟩
        rw [List.find?_eq_none] at hfind
        exact hfind e hme (by rwa [← hk])
      · simp [hk]
    | some e =>
      have he2 : (e.1 == k2) = true := by
        have := List.find?_some hfind
        simpa using this
      by_cases hk : k = k2
      · have hek : (e.1 == k) = true := by rw [hk]; exact he2
        dsimp only [Option.map]
        rw [if_pos hek, if_pos hk]
      · have hek : (e.1 == k) = false := by
          have he2' : e.1 = k2 := by simpa using he2
          rw [beq_eq_false_iff_ne, he2']
          exact fun hcon => hk hcon.symm
        dsimp only [Option.map]
        rw [if_neg (by simp [hek]), if_neg hk]
        simp
  · rw [if_neg hany]
    rw [List.find?_append]
    cases hfind : m.find? (fun e => e.1 == k2) with
    | some e =>
      by_cases hk : k = k2
      · exfalso
        apply hany
        rw [List.any_eq_true]
        refine ⟨e, List.mem_of_find?_eq_some hfind, ?_⟩
        have := List.find?_some hfind
        rw [hk]
        simpa using this
      · simp [hk]
    | none =>
      by_cases hk : k = k2
      · simp [hk]
      · have hkk : (k == k2) = false := by
          rw [beq_eq_false_iff_ne]
          exact hk
        simp [hkk, hk]

theorem buildMapsStep_code (ci ni : Option Nat) (ms : Maps) (row : Row) :
    (buildMapsStep ci ni ms row).code_map =
      (match ci with
       | some i => if (rowNormAt row (some i)).isEmpty = true then ms.code_map
                   else mapAppend ms.code_map (rowNormAt row (some i)) row
       | none => ms.code_map) := by
  unfold buildMapsStep
  cases ci <;> cases ni <;> dsimp only <;> split_ifs <;> rfl

theorem buildMapsStep_name (ci ni : Option Nat) (ms : Maps) (row : Row) :
    (buildMapsStep ci ni ms row).name_map =
      (match ni with
       | some i => if (rowNormAt row (some i)).isEmpty = true then ms.name_map
                   else mapAppend ms.name_map (rowNormAt row (some i)) row
       | none => ms.name_map) := by
  unfold buildMapsStep
  cases ci <;> cases ni <;> dsimp only <;> split_ifs <;> rfl

theorem buildMapsStep_pref (ci ni : Option Nat) (ms : Maps) (row : Row) :
    (buildMapsStep ci ni ms row).name_prefix_map =
      (match ni with
       | some i => if (rowNormAt row (some i)).isEmpty = true then ms.name_prefix_map
                   else if (rowNormAt row (some i)).length > 3 then
                     mapAppend ms.name_prefix_map ((rowNormAt row (some i)).take 5) row
                   else ms.name_prefix_map
       | none => ms.name_prefix_map) := by
  unfold buildMapsStep
  cases ci <;> cases ni <;> dsimp only <;> split_ifs <;> rfl

theorem beq_eq_false_of_ne_nil {k : Str} (s : Str) (hk : k ≠ []) (hs : s = []) :
    (s == k) = false := by
  rw [beq_eq_false_iff_ne, hs]
  exact Ne.symm hk

theorem buildMaps_code_aux (ci ni : Option Nat) (k : Str) (hk : k ≠ []) :
    ∀ (rows : List Row) (ms : Maps),
      mapGetD ((rows.foldl (buildMapsStep ci ni) ms)).code_map k
        = mapGetD ms.code_map k ++ (rows.filter (fun r => rowNormAt r ci == k)) := by
  intro rows
  induction rows with
  | nil => intro ms; simp
  | cons r t ih =>
    intro ms
    rw [List.foldl_cons, ih, List.filter_cons, buildMapsStep_code]
    cases ci with
    | none =>
      dsimp only
      have hval : (rowNormAt r none == k) = false :=
        beq_eq_false_of_ne_nil (rowNormAt r none) hk rfl
      rw [hval]
      simp
    | some i =>
      dsimp only
      by_cases hc : (rowNormAt r (some i)).isEmpty = true
      · have hval : (rowNormAt r (some i) == k) = false :=
          beq_eq_false_of_ne_nil (rowNormAt r (some i)) hk (List.isEmpty_iff.mp hc)
        rw [if_pos hc, hval]
        simp
      · rw [if_neg hc, mapGetD_mapAppend]
        by_cases heq : rowNormAt r (some i) = k
        · simp [heq]
        · simp [heq]

theorem buildMaps_name_aux (ci ni : Option Nat) (k : Str) (hk : k ≠ []) :
    ∀ (rows : List Row) (ms : Maps),
      mapGetD ((rows.foldl (buildMapsStep ci ni) ms)).name_map k
        = mapGetD ms.name_map k ++ (rows.filter (fun r => rowNormAt r ni == k)) := by
  intro rows
  induction rows with
  | nil => intro ms; simp
  | cons r t ih =>
    intro ms
    rw [List.foldl_cons, ih, List.filter_cons, buildMapsStep_name]
    cases ni with
    | none =>
      dsimp only
      have hval : (rowNormAt r none == k) = false :=
        beq_eq_false_of_ne_nil (rowNormAt r none) hk rfl
      rw [hval]
      simp
    | some i =>
      dsimp only
      by_cases hc : (rowNormAt r (some i)).isEmpty = true
      · have hval : (rowNormAt r (some i) == k) = false :=
          beq_eq_false_of_ne_nil (rowNormAt r (some i)) hk (List.isEmpty_iff.mp hc)
        rw [if_pos hc, hval]
        simp
      · rw [if_neg hc, mapGetD_mapAppend]
        by_cases heq : rowNormAt r (some i) = k
        · simp [heq]
        · simp [heq]

theorem buildMaps_pref_aux (ci ni : Option Nat) (k : Str) :
    ∀ (rows : List Row) (ms : Maps),
      mapGetD ((rows.foldl (buildMapsStep ci ni) ms)).name_prefix_map k
        = mapGetD ms.name_prefix_map k
          ++ (rows.filter (fun r =>
              !(rowNormAt r ni).isEmpty && decide ((rowNormAt r ni).length > 3)
                && ((rowNormAt r ni).take 5 == k))) := by
  intro rows
  induction rows with
  | nil => intro ms; simp
  | cons r t ih =>
    intro ms
    rw [List.foldl_cons, ih, List.filter_cons, buildMapsStep_pref]
    cases ni with
    | none =>
      dsimp only
      simp [rowNormAt]
    | some i =>
      dsimp only
      by_cases hc : (rowNormAt r (some i)).isEmpty = true
      · rw [if_pos hc]
        simp [hc]
      · rw [if_neg hc]
        by_cases hl : (rowNormAt r (some i)).length > 3
        · rw [if_pos hl, mapGetD_mapAppend]
          by_cases heq : (rowNormAt r (some i)).take 5 = k
          · simp [heq, hc, hl]
          · simp [heq, hc, hl]
        · rw [if_neg hl]
          simp [hl]

/-- C4 — each accepted pharmacy row emits exactly one output row, formed
from the pharmacy row and the first of its matched reference rows, where
each index bucket lists the reference rows carrying its key in reference
table order (so the head of a bucket is the earliest such row); the other
matched rows are never merged into the output. -/
theorem match_and_filter_first_match
    (ci ni : Option Nat) (rows : List Row) (k : Str) (ctx : MatchCtx)
    (st : LoopState) (row : Row) :
    (k ≠ [] → mapGetD (buildMaps ci ni rows).code_map k
        = rows.filter (fun r => rowNormAt r ci == k)) ∧
    (k ≠ [] → mapGetD (buildMaps ci ni rows).name_map k
        = rows.filter (fun r => rowNormAt r ni == k)) ∧
    (mapGetD (buildMaps ci ni rows).name_prefix_map k
        = rows.filter (fun r =>
            !(rowNormAt r ni).isEmpty && decide ((rowNormAt r ni).length > 3)
              && ((rowNormAt r ni).take 5 == k))) ∧
    ((rowMatchesOf ctx row).isEmpty = false →
      (!(dedupKeyOf ctx row).isEmpty
          && st.matched_codes.contains (dedupKeyOf ctx row)) = false →
      recentCondOf ctx (rowMatchesOf ctx row) = true →
      (matchStep ctx st row).out
        = st.out ++ [format_result_row (mkSeries ctx.ph_cols row)
            (mkSeries ctx.mhlw_cols ((rowMatchesOf ctx row).headD []))]) := by
  refine ⟨?_, ?_, ?_, ?_⟩
  · intro hk
    rw [buildMaps, buildMaps_code_aux ci ni k hk rows]
    rfl
  · intro hk
    rw [buildMaps, buildMaps_name_aux ci ni k hk rows]
    rfl
  · rw [buildMaps, buildMaps_pref_aux ci ni k rows]
    rfl
  · intro h1 h2 h3
    rcases matchStep_cases ctx st row with ⟨a1, ae⟩ | ⟨a1, a2, ae⟩ | ⟨a1, a2, ae⟩
    · rw [a1] at h1
      cases h1
    · rw [a2] at h2
      cases h2
    · rw [ae]
      simp [h3, emitRowOf]

theorem match_and_filter_first_match_witness :
    mapGetD (buildMaps (some 0) none
        [[Value.vStr "abc".data], [Value.vStr "xyz".data], [Value.vStr "ABC".data]]).code_map
        "abc".data
      = [[Value.vStr "abc".data], [Value.vStr "ABC".data]] ∧
    (matchStep exCtx { out := [], matched_codes := [], matched_count := 0, recent_count := 0 }
        [Value.vStr "ABC".data]).out
      = [] ++ [format_result_row
          (mkSeries exCtx.ph_cols [Value.vStr "ABC".data])
          (mkSeries exCtx.mhlw_cols
            ((rowMatchesOf exCtx [Value.vStr "ABC".data]).headD []))] :=
  ⟨((match_and_filter_first_match (some 0) none
      [[Value.vStr "abc".data], [Value.vStr "xyz".data], [Value.vStr "ABC".data]]
      "abc".data exCtx
      { out := [], matched_codes := [], matched_count := 0, recent_count := 0 }
      [Value.vStr "ABC".data]).1 (by decide)).trans (by decide),
   (match_and_filter_first_match (some 0) none
      [[Value.vStr "abc".data], [Value.vStr "xyz".data], [Value.vStr "ABC".data]]
      "abc".data exCtx
      { out := [], matched_codes := [], matched_count := 0, recent_count := 0 }
      [Value.vStr "ABC".data]).2.2.2 (by decide) (by decide) (by decide)⟩

theorem mhlw_side_no_pharmacy_key (mh : List (Str × Value)) (key0 : Str) :
    (mh.filterMap (fun e =>
        if keepCol e.1 then some ("mhlw_".data ++ e.1, renderMhlwCell e.2) else none)).find?
      (fun e => e.1 == "pharmacy_".data ++ key0) = none := by
  rw [List.find?_eq_none]
  intro x hx
  rcases List.mem_filterMap.mp hx with ⟨e, _, he⟩
  by_cases hkeepe : keepCol e.1 = true
  · rw [if_pos hkeepe] at he
    injection he with he
    intro hcon
    rw [← he] at hcon
    have hcon2 : ("mhlw_".data ++ e.1 : Str) = "pharmacy_".data ++ key0 :=
      eq_of_beq hcon
    have h0 := congrArg List.head? hcon2
    simp [List.head?_append] at h0
  · rw [if_neg hkeepe] at he
    cases he

theorem rowField_format (s mh : List (Str × Value)) (c : Str) (hkeep : keepCol c = true) :
    rowField (format_result_row s mh) ("pharmacy_".data ++ c)
      = (s.find? (fun e => e.1 == c)).map (fun e => safe_str e.2) := by
  rw [format_result_row_split]
  unfold rowField
  rw [List.find?_append, mhlw_side_no_pharmacy_key]
  induction s with
  | nil => rfl
  | cons e rest ih =>
    rw [List.filterMap_cons, List.find?_cons]
    by_cases hec : e.1 = c
    · have hkeepe : keepCol e.1 = true := by rwa [hec]
      rw [if_pos hkeepe]
      have hpk : (("pharmacy_".data ++ e.1 : Str) == "pharmacy_".data ++ c) = true := by
        rw [hec]
        simp
      rw [List.find?_cons, hpk]
      have hek : (e.1 == c) = true := by simpa using hec
      rw [hek]
      rfl
    · have hek : (e.1 == c) = false := by
        rw [beq_eq_false_iff_ne]
        exact hec
      rw [hek]
      by_cases hkeepe : keepCol e.1 = true
      · rw [if_pos hkeepe]
        have hpk : (("pharmacy_".data ++ e.1 : Str) == "pharmacy_".data ++ c) = false := by
          rw [beq_eq_false_iff_ne]
          intro hcon
          exact hec (List.append_cancel_left hcon)
        rw [List.find?_cons, hpk]
        exact ih
      · rw [if_neg hkeepe]
        exact ih

theorem matchStep_key_invariant (ctx : MatchCtx) (c : Str)
    (hcol : ctx.pharmacy_code_column = some c) (hkeep : keepCol c = true)
    (k : Str) (hk : k ≠ []) (st : LoopState) (row : Row)
    (h1 : st.matched_codes.contains k = false →
      (st.out.filter (fun o => rowField o ("pharmacy_".data ++ c) == some k)).length = 0)
    (h2 : (st.out.filter (fun o => rowField o ("pharmacy_".data ++ c) == some k)).length ≤ 1) :
    ((matchStep ctx st row).matched_codes.contains k = false →
      ((matchStep ctx st row).out.filter
        (fun o => rowField o ("pharmacy_".data ++ c) == some k)).length = 0) ∧
    ((matchStep ctx st row).out.filter
        (fun o => rowField o ("pharmacy_".data ++ c) == some k)).length ≤ 1 := by
  rcases matchStep_cases ctx st row with ⟨_, ae⟩ | ⟨_, _, ae⟩ | ⟨a1, a2, ae⟩
  · rw [ae]
    exact ⟨h1, h2⟩
  · rw [ae]
    exact ⟨h1, h2⟩
  · have hkey : dedupKeyOf ctx row
        = safe_str (seriesGet (mkSeries ctx.ph_cols row) (some c)) := by
      unfold dedupKeyOf
      rw [hcol]
    have hemit : rowField (emitRowOf ctx row (rowMatchesOf ctx row)) ("pharmacy_".data ++ c)
        = ((mkSeries ctx.ph_cols row).find? (fun e => e.1 == c)).map
            (fun e => safe_str e.2) := by
      unfold emitRowOf
      exact rowField_format _ _ _ hkeep
    have haout : (matchStep ctx st row).out
        = (if recentCondOf ctx (rowMatchesOf ctx row) = true then
            st.out ++ [emitRowOf ctx row (rowMatchesOf ctx row)] else st.out) := by
      rw [ae]
    have hacodes : (matchStep ctx st row).matched_codes
        = (if (!(dedupKeyOf ctx row).isEmpty) = true then
            st.matched_codes ++ [dedupKeyOf ctx row] else st.matched_codes) := by
      rw [ae]
    rw [haout, hacodes]
    cases hf : (mkSeries ctx.ph_cols row).find? (fun e => e.1 == c) with
    | none =>
      have hkeynil : dedupKeyOf ctx row = [] := by
        rw [hkey]
        unfold seriesGet
        dsimp only
        rw [hf]
        rfl
      have hfield : (rowField (emitRowOf ctx row (rowMatchesOf ctx row))
          ("pharmacy_".data ++ c) == some k) = false := by
        rw [hemit, hf]
        rfl
      have hsingle : (List.filter (fun o => rowField o ("pharmacy_".data ++ c) == some k)
          [emitRowOf ctx row (rowMatchesOf ctx row)]) = [] := by
        simp only [List.filter_cons, List.filter_nil, hfield]
        rfl
      have hout : ((if recentCondOf ctx (rowMatchesOf ctx row) = true then
            st.out ++ [emitRowOf ctx row (rowMatchesOf ctx row)] else st.out).filter
          (fun o => rowField o ("pharmacy_".data ++ c) == some k)).length
          = (st.out.filter (fun o => rowField o ("pharmacy_".data ++ c) == some k)).length := by
        by_cases hrc : recentCondOf ctx (rowMatchesOf ctx row) = true
        · rw [if_pos hrc, List.filter_append, hsingle, List.append_nil]
        · rw [if_neg hrc]
      have hcodes : (if (!(dedupKeyOf ctx row).isEmpty) = true then
          st.matched_codes ++ [dedupKeyOf ctx row] else st.matched_codes)
          = st.matched_codes := by
        rw [hkeynil]
        rfl
      rw [hout, hcodes]
      exact ⟨h1, h2⟩
    | some e =>
      have hkeyval : dedupKeyOf ctx row = safe_str e.2 := by
        rw [hkey]
        unfold seriesGet
        dsimp only
        rw [hf]
      have hfieldval : rowField (emitRowOf ctx row (rowMatchesOf ctx row))
          ("pharmacy_".data ++ c) = some (safe_str e.2) := by
        rw [hemit, hf]
        rfl
      by_cases hkeq : safe_str e.2 = k
      · -- the emitted key is exactly k: it was unseen before and is now recorded
        have hkne : dedupKeyOf ctx row ≠ [] := by
          rw [hkeyval, hkeq]
          exact hk
        have hkemp : (dedupKeyOf ctx row).isEmpty = false := by
          cases hcase : dedupKeyOf ctx row with
          | nil => exact absurd hcase hkne
          | cons a t => rfl
        have hcontfalse : st.matched_codes.contains (dedupKeyOf ctx row) = false := by
          by_cases hcon : st.matched_codes.contains (dedupKeyOf ctx row) = true
          · exfalso
            rw [hcon, hkemp] at a2
            simp at a2
          · exact Bool.eq_false_iff.mpr hcon
        have hcodes0 : st.matched_codes.contains k = false := by
          rw [← hkeq, ← hkeyval]
          exact hcontfalse
        have hcount0 := h1 hcodes0
        have hfieldtrue : (rowField (emitRowOf ctx row (rowMatchesOf ctx row))
            ("pharmacy_".data ++ c) == some k) = true := by
          rw [hfieldval, hkeq]
          simp
        have hsingle1 : (List.filter (fun o => rowField o ("pharmacy_".data ++ c) == some k)
            [emitRowOf ctx row (rowMatchesOf ctx row)])
            = [emitRowOf ctx row (rowMatchesOf ctx row)] := by
          simp only [List.filter_cons, List.filter_nil, hfieldtrue]
          rfl
        constructor
        · intro hcont
          rw [if_pos (show (!(dedupKeyOf ctx row).isEmpty) = true by rw [hkemp]; rfl),
            hkeyval, hkeq] at hcont
          have htrue : (st.matched_codes ++ [k]).contains k = true := by
            simp [List.contains]
          rw [htrue] at hcont
          cases hcont
        · by_cases hrc : recentCondOf ctx (rowMatchesOf ctx row) = true
          · rw [if_pos hrc, List.filter_append, hsingle1, List.length_append, hcount0]
            simp
          · rw [if_neg hrc]
            omega
      · -- the emitted key differs from k: nothing about k changes
        have hfieldfalse : (rowField (emitRowOf ctx row (rowMatchesOf ctx row))
            ("pharmacy_".data ++ c) == some k) = false := by
          rw [hfieldval, beq_eq_false_iff_ne]
          intro hcon
          exact hkeq (Option.some.inj hcon)
        have hsingle0 : (List.filter (fun o => rowField o ("pharmacy_".data ++ c) == some k)
            [emitRowOf ctx row (rowMatchesOf ctx row)]) = [] := by
          simp only [List.filter_cons, List.filter_nil, hfieldfalse]
          rfl
        have hout : ((if recentCondOf ctx (rowMatchesOf ctx row) = true then
              st.out ++ [emitRowOf ctx row (rowMatchesOf ctx row)] else st.out).filter
            (fun o => rowField o ("pharmacy_".data ++ c) == some k)).length
            = (st.out.filter (fun o => rowField o ("pharmacy_".data ++ c) == some k)).length := by
          by_cases hrc : recentCondOf ctx (rowMatchesOf ctx row) = true
          · rw [if_pos hrc, List.filter_append, hsingle0, List.append_nil]
          · rw [if_neg hrc]
        have hcodes : (if (!(dedupKeyOf ctx row).isEmpty) = true then
            st.matched_codes ++ [dedupKeyOf ctx row] else st.matched_codes).contains k
            = st.matched_codes.contains k := by
          by_cases hkemp2 : (!(dedupKeyOf ctx row).isEmpty) = true
          · rw [if_pos hkemp2]
            have hne : dedupKeyOf ctx row ≠ k := by
              rw [hkeyval]
              exact hkeq
            simp [List.contains]
            intro hcon
            exact absurd hcon.symm hne
          · rw [if_neg hkemp2]
        rw [hout, hcodes]
        exact ⟨h1, h2⟩

/-- C1 counterexample — deduplication is keyed on the raw safe-stringified
code, not the normalized code: two pharmacy rows whose codes `ＡＢＣ` and
`ABC` have the same non-empty normalized form both match the same reference
row and both are counted and emitted, producing two output rows where the
claim allows at most one. -/
theorem dedup_not_normalized_counterexample :
    normalize_text (pyStr (Value.vStr "ＡＢＣ".data))
        = normalize_text (pyStr (Value.vStr "ABC".data)) ∧
    normalize_text (pyStr (Value.vStr "ＡＢＣ".data)) ≠ [] ∧
    (match_and_filter exMatcher exPharmacyTable 10 0).stats.matched_rows = 2 ∧
    (match_and_filter exMatcher exPharmacyTable 10 0).data.length = 2 := by
  refine ⟨by decide, by decide, by decide, by decide⟩

/-- C1 amended — deduplication is keyed on the exact raw code string
(`_safe_str` of the code cell, with no normalization): a matching pharmacy
row is skipped (leaving the loop state unchanged) exactly when that raw key
is non-empty and was already recorded for an earlier matching row of the
same call; a matching row with an empty raw key is always counted; and for
every non-empty key the output contains at most one row carrying it in its
`pharmacy_<code column>` field. -/
theorem match_and_filter_dedup (ctx : MatchCtx) (st : LoopState) (row : Row)
    (m : Matcher) (ph : Table) (db now : Int) (c k : Str) :
    ((rowMatchesOf ctx row).isEmpty = false →
      (matchStep ctx st row = st ↔
        (dedupKeyOf ctx row ≠ [] ∧
          st.matched_codes.contains (dedupKeyOf ctx row) = true))) ∧
    ((rowMatchesOf ctx row).isEmpty = false → dedupKeyOf ctx row = [] →
      (matchStep ctx st row).matched_count = st.matched_count + 1) ∧
    (find_column ph.cols DRUG_CODE_COLUMN_PATTERNS = some c → keepCol c = true → k ≠ [] →
      ((match_and_filter m ph db now).data.filter
          (fun o => rowField o ("pharmacy_".data ++ c) == some k)).length ≤ 1) := by
  refine ⟨?_, ?_, ?_⟩
  · intro h1m
    rcases matchStep_cases ctx st row with ⟨a1, ae⟩ | ⟨a1, a2, ae⟩ | ⟨a1, a2, ae⟩
    · rw [a1] at h1m
      cases h1m
    · constructor
      · intro _
        rcases Bool.and_eq_true_iff.mp a2 with ⟨hx, hy⟩
        refine ⟨?_, hy⟩
        intro hcon
        rw [hcon] at hx
        simp at hx
      · intro _
        exact ae
    · constructor
      · intro heq
        exfalso
        have hcnt := congrArg LoopState.matched_count heq
        rw [ae] at hcnt
        simp at hcnt
      · rintro ⟨hk1, hk2⟩
        exfalso
        have htrue : (!(dedupKeyOf ctx row).isEmpty
            && st.matched_codes.contains (dedupKeyOf ctx row)) = true := by
          have hkemp : (dedupKeyOf ctx row).isEmpty = false := by
            cases hcase : dedupKeyOf ctx row with
            | nil => exact absurd hcase hk1
            | cons a t => rfl
          rw [hkemp, hk2]
          rfl
        rw [htrue] at a2
        cases a2
  · intro h1m hknil
    rcases matchStep_cases ctx st row with ⟨a1, ae⟩ | ⟨a1, a2, ae⟩ | ⟨a1, a2, ae⟩
    · rw [a1] at h1m
      cases h1m
    · exfalso
      rw [hknil] at a2
      simp at a2
    · rw [ae]
  · intro hfind hkeep hk
    cases hdf : m.mhlw_df with
    | none => simp [match_and_filter, hdf]
    | some mdf =>
      by_cases hemp : mdf.rows.isEmpty = true
      · simp [match_and_filter, hdf, hemp]
      · have hcol : (mkCtx m mdf ph (now - db)).pharmacy_code_column = some c := hfind
        have hinv := foldl_inv (matchStep (mkCtx m mdf ph (now - db)))
          (fun s => (s.matched_codes.contains k = false →
              (s.out.filter (fun o =>
                rowField o ("pharmacy_".data ++ c) == some k)).length = 0) ∧
            (s.out.filter (fun o =>
              rowField o ("pharmacy_".data ++ c) == some k)).length ≤ 1)
          (fun s a hs => matchStep_key_invariant _ c hcol hkeep k hk s a hs.1 hs.2)
          ph.rows { out := [], matched_codes := [], matched_count := 0, recent_count := 0 }
          ⟨fun _ => rfl, by simp⟩
        simp only [match_and_filter, hdf]
        rw [if_neg hemp]
        exact hinv.2

theorem match_and_filter_dedup_witness :
    matchStep exCtx
        { out := [], matched_codes := ["ABC".data], matched_count := 1, recent_count := 1 }
        [Value.vStr "ABC".data]
      = { out := [], matched_codes := ["ABC".data], matched_count := 1, recent_count := 1 } ∧
    (matchStep exCtxName
        { out := [], matched_codes := [], matched_count := 0, recent_count := 0 }
        [Value.vNone, Value.vStr "ねむり".data]).matched_count = 0 + 1 ∧
    ((match_and_filter exMatcher exPharmacyTable 10 0).data.filter
        (fun o => rowField o ("pharmacy_".data ++ "薬品コード".data) == some "ABC".data)).length
      ≤ 1 :=
  ⟨((match_and_filter_dedup exCtx
      { out := [], matched_codes := ["ABC".data], matched_count := 1, recent_count := 1 }
      [Value.vStr "ABC".data] exMatcher exPharmacyTable 10 0
      "薬品コード".data "ABC".data).1 (by decide)).mpr ⟨by decide, by decide⟩,
   (match_and_filter_dedup exCtxName
      { out := [], matched_codes := [], matched_count := 0, recent_count := 0 }
      [Value.vNone, Value.vStr "ねむり".data] exMatcher exPharmacyTable 10 0
      "薬品コード".data "ABC".data).2.1 (by decide) (by decide),
   (match_and_filter_dedup exCtx
      { out := [], matched_codes := [], matched_count := 0, recent_count := 0 }
      [] exMatcher exPharmacyTable 10 0
      "薬品コード".data "ABC".data).2.2 (by decide) (by decide) (by decide)⟩

end DrugChecker
